import Mathlib

/-
  Verification of the deep-research-agent repository.

  Shallow embedding of the step-oriented orchestration engine:
  the plan store and cursor, the evaluation node with recursive plan
  expansion, the gather-verify-distill worker, the HITL feedback
  handlers, the middleware pipeline, and the cosine-similarity
  primitive.  Python dictionaries are modelled as association lists,
  machine floats as rationals (or reals for the similarity module),
  wall-clock timestamps are omitted, and every external call (LLM,
  search, verifier) is modelled as an explicit outcome parameter with
  an exception constructor.
-/

namespace DeepResearch

/-! ## Data model, from
    src/agents/deep-research/src/deep_research_agent/state.py -/

/-- Research step status enum (state.py, ResearchStepStatus). -/
inductive ResearchStepStatus where
  | pending
  | executing
  | completed
  | failed
deriving DecidableEq, Repr

/-- Research step (state.py, ResearchStep).  Timestamp fields
(start_time, end_time) are omitted from the embedding. -/
structure ResearchStep where
  step_id : String
  title : String
  description : String
  keywords : List String
  expected_output : String
  status : ResearchStepStatus := .pending
  error_message : Option String := none
  /-- Modelled from the spec: the `depth` field is read and written by
  `evaluate_task_result`, by `RecursionCircuitBreaker` and by the tests,
  but is missing from the `ResearchStep` definition in `state.py` under
  `src/`.  Spec section 3: depth is an integer, 0 for root steps,
  parent depth plus 1 for inserted sub-steps. -/
  depth : Nat := 0
deriving DecidableEq, Repr

/-- Research plan (state.py, ResearchPlan). -/
structure ResearchPlan where
  topic : String
  objective : String
  steps : List ResearchStep
  estimated_duration_minutes : Int := 15
  user_modified : Bool := false
  modification_notes : Option String := none
deriving DecidableEq, Repr

/-- ResearchPlan.get_current_step: the step at the cursor, or none when
the cursor is out of range (state.py). -/
def ResearchPlan.get_current_step (p : ResearchPlan) (current_index : Int) :
    Option ResearchStep :=
  if 0 ≤ current_index ∧ current_index < p.steps.length then
    p.steps.get? current_index.toNat
  else
    none

/-- Search result record (state.py, SearchResult).  The retrieved_at
timestamp is omitted. -/
structure SearchResult where
  url : String
  title : String
  content : String
  snippet : String
  score : ℚ := 0
  source : String := "tavily"
deriving DecidableEq, Repr

/-- Extracted insight (state.py, ExtractedInsight).  The extracted_at
timestamp is omitted. -/
structure ExtractedInsight where
  step_id : String
  content : String
  sources : List String
  confidence : ℚ := 0
deriving DecidableEq, Repr

/-- Agent status enum (agent_core/core/state.py, AgentStatus). -/
inductive AgentStatus where
  | planning
  | plan_review
  | executing
  | final_review
  | completed
  | error
deriving DecidableEq, Repr

/-- Human-in-the-loop event (agent_core/core/state.py, HITLEvent).
The payload dictionary is modelled as an opaque string and the
timestamp is omitted. -/
structure HITLEvent where
  event_type : String
  session_id : String
  payload : String := ""
  requires_response : Bool := true
deriving DecidableEq, Repr

/-- Research agent configuration (state.py, ResearchConfig), restricted
to the fields the embedded nodes read. -/
structure ResearchConfig where
  max_search_iterations : Int := 5
  max_sources_per_step : Int := 10
  require_plan_approval : Bool := true
  require_final_approval : Bool := false
  llm_model : String := "gpt-4"
deriving DecidableEq, Repr

/-- Python dict lookup on an association list (first binding wins). -/
def lookupD {α : Type} (m : List (String × α)) (k : String) : Option α :=
  (m.find? (fun p => p.1 == k)).map Prod.snd

/-- Python dict write on an association list: replace any existing
binding for the key. -/
def insertD {α : Type} (m : List (String × α)) (k : String) (v : α) :
    List (String × α) :=
  if (m.find? (fun p => p.1 == k)).isSome then
    m.map (fun p => if p.1 == k then (k, v) else p)
  else
    m ++ [(k, v)]

/-- The root session aggregate (state.py, ResearchAgentState, together
with the BaseAgentState fields it inherits).  Dictionaries are
association lists; the metadata scratch dictionary is modelled as a
list of strings. -/
structure ResearchAgentState where
  user_query : String := ""
  config : ResearchConfig := {}
  session_id : String := ""
  user_id : Option String := none
  status : AgentStatus := .planning
  error_message : Option String := none
  retry_count : Nat := 0
  human_feedback : Option String := none
  pending_hitl_event : Option HITLEvent := none
  metadata : List String := []
  research_plan : Option ResearchPlan := none
  current_step_index : Int := 0
  search_results : List (String × List SearchResult) := []
  extracted_insights : List (String × ExtractedInsight) := []
  quality_warnings : List String := []
  final_report : Option String := none
deriving DecidableEq, Repr

namespace ResearchAgentState

/-- ResearchAgentState.add_search_result (state.py). -/
def add_search_result (s : ResearchAgentState) (step_id : String)
    (r : SearchResult) : ResearchAgentState :=
  let existing := (lookupD s.search_results step_id).getD []
  { s with search_results := insertD s.search_results step_id (existing ++ [r]) }

/-- ResearchAgentState.add_insight (state.py): a later write for the
same step id replaces the earlier one. -/
def add_insight (s : ResearchAgentState) (i : ExtractedInsight) :
    ResearchAgentState :=
  { s with extracted_insights := insertD s.extracted_insights i.step_id i }

/-- ResearchAgentState.get_current_step (state.py). -/
def get_current_step (s : ResearchAgentState) : Option ResearchStep :=
  match s.research_plan with
  | some p => p.get_current_step s.current_step_index
  | none => none

/-- ResearchAgentState.move_to_next_step (state.py): increments the
cursor and returns true only when a plan exists and the cursor is
strictly below length - 1. -/
def move_to_next_step (s : ResearchAgentState) : ResearchAgentState × Bool :=
  match s.research_plan with
  | some p =>
    if s.current_step_index < (p.steps.length : Int) - 1 then
      ({ s with current_step_index := s.current_step_index + 1 }, true)
    else
      (s, false)
  | none => (s, false)

/-- BaseAgentState.set_error (agent_core/core/state.py). -/
def set_error (s : ResearchAgentState) (msg : String) : ResearchAgentState :=
  { s with status := .error, error_message := some msg }

/-- BaseAgentState.complete (agent_core/core/state.py), reached through
ResearchAgentState.complete_research. -/
def complete_research (s : ResearchAgentState) : ResearchAgentState :=
  { s with status := .completed }

/-- Modelled from the spec: `insert_steps_after_current` is called by
`evaluate_task_result` and exercised by the tests, but no such method
exists on `ResearchAgentState` in `state.py` under `src/`.  Spec
section 4.1: splices the new steps into the plan immediately after the
cursor position, preserving their relative order; does not move the
cursor. -/
def insert_steps_after_current (s : ResearchAgentState)
    (newSteps : List ResearchStep) : ResearchAgentState :=
  match s.research_plan with
  | none => s
  | some p =>
    let i := (s.current_step_index + 1).toNat
    let steps' := p.steps.take i ++ newSteps ++ p.steps.drop i
    { s with research_plan := some { p with steps := steps' } }

/-- Replace the step at the cursor with the image of the supplied
function.  This models the Python in-place mutation of the aliased
`current_step` object inside the plan list. -/
def updateCurrentStep (s : ResearchAgentState)
    (f : ResearchStep → ResearchStep) : ResearchAgentState :=
  match s.research_plan with
  | none => s
  | some p =>
    match p.get_current_step s.current_step_index with
    | none => s
    | some st =>
      let steps' := p.steps.set s.current_step_index.toNat (f st)
      { s with research_plan := some { p with steps := steps' } }

end ResearchAgentState

/-! ## Result evaluation node, from
    src/agents/deep-research/src/deep_research_agent/nodes/result_evaluation.py -/

/-- MAX_RECURSION_DEPTH constant (result_evaluation.py). -/
def MAX_RECURSION_DEPTH : Nat := 3

/-- One candidate sub-step as parsed out of the judgment JSON
(result_evaluation.py, the entries of decision_data new_steps). -/
structure NewStepData where
  title : String := ""
  description : String := ""
  keywords : List String := []
  expected_output : String := ""
deriving DecidableEq, Repr

/-- Outcome of the judgment call in evaluate_task_result.  The exn
constructor stands for any exception raised while invoking the LLM,
stripping code fences, JSON-decoding, or validating the reply; the
decision constructor carries the parsed status string and the parsed
new_steps list. -/
inductive JudgmentOutcome where
  | exn (msg : String)
  | decision (status : String) (new_steps : List NewStepData)
deriving DecidableEq, Repr

/-- Materialisation of one candidate sub-step (result_evaluation.py):
the child id is the parent id followed by ".sub" and the 1-based
candidate index, and the child depth is the parent depth plus one. -/
def materializeSubStep (parent : ResearchStep) (i : Nat) (d : NewStepData) :
    ResearchStep :=
  { step_id := parent.step_id ++ ".sub" ++ toString (i + 1)
    title := d.title
    description := d.description
    keywords := d.keywords
    expected_output := d.expected_output
    status := .pending
    error_message := none
    depth := parent.depth + 1 }

/-- evaluate_task_result (result_evaluation.py).  With no current step
the state is returned unchanged.  Otherwise the judgment call is made
only when an insight exists for the step and its depth is below
MAX_RECURSION_DEPTH; a NEEDS_MORE_INFO verdict with at least one
candidate splices the materialised sub-steps in after the cursor; any
exception from the judgment call is swallowed; finally the cursor is
always advanced by exactly one. -/
def evaluate_task_result (s : ResearchAgentState) (judge : JudgmentOutcome) :
    ResearchAgentState :=
  match s.get_current_step with
  | none => s
  | some current_step =>
    let insight := lookupD s.extracted_insights current_step.step_id
    let should_evaluate :=
      insight.isSome && decide (current_step.depth < MAX_RECURSION_DEPTH)
    let s1 :=
      if should_evaluate then
        match judge with
        | .exn _ => s
        | .decision status new_steps_data =>
          if status = "NEEDS_MORE_INFO" then
            let new_steps := new_steps_data.enum.map
              (fun p => materializeSubStep current_step p.1 p.2)
            if new_steps.isEmpty then s
            else s.insert_steps_after_current new_steps
          else s
      else s
    { s1 with current_step_index := s1.current_step_index + 1 }

/-! ## Routing functions, from
    src/agents/deep-research/src/deep_research_agent/graph.py -/

/-- Targets of the conditional edges in graph.py; END is the graph
terminal. -/
inductive Route where
  | execute_step
  | generate_report
  | plan_generation
  | create_plan_approval
  | create_report_approval
  | END
deriving DecidableEq, Repr

/-- check_step_completion (graph.py): route after evaluation. -/
def check_step_completion (s : ResearchAgentState) : Route :=
  if s.status = .error then .END
  else
    match s.research_plan with
    | none => .END
    | some plan =>
      if s.current_step_index < plan.steps.length then .execute_step
      else .generate_report

/-- should_continue_to_execution (graph.py): route after plan
generation. -/
def should_continue_to_execution (s : ResearchAgentState) : Route :=
  if s.status = .error then .END
  else if s.config.require_plan_approval then .create_plan_approval
  else .execute_step

/-- route_after_wait (graph.py): route on resume from the wait node. -/
def route_after_wait (s : ResearchAgentState) : Route :=
  match s.status with
  | .executing => .execute_step
  | .planning => .plan_generation
  | .completed => .END
  | .error => .END
  | _ => .END

/-! ## HITL coordinator and feedback handlers, from
    src/libs/agent-core/src/agent_core/core/hitl.py and
    src/agents/deep-research/src/deep_research_agent/nodes/hitl_handlers.py -/

/-- Feedback payload submitted by the user, restricted to the keys the
handlers read (hitl_handlers.py). -/
structure Feedback where
  action : Option String := none
  notes : Option String := none
  modified_plan : Option ResearchPlan := none
deriving DecidableEq, Repr

/-- The structured-modification update loop of handle_plan_feedback:
every plan field present in the patch dictionary overwrites the
matching attribute of the existing plan.  The patch is modelled as a
whole replacement plan, the most general shape of the setattr loop. -/
def applyPlanPatch (patch : ResearchPlan) : ResearchPlan := patch

/-- handle_plan_feedback (hitl_handlers.py): approve starts execution
at cursor 0; modify with a structured plan applies it and starts
execution; modify with notes only stores the notes on the plan and
returns to planning; anything else (reject included) is a terminal
rejection.  The pending HITL event is always cleared. -/
def handle_plan_feedback (s : ResearchAgentState) (fb : Feedback) :
    ResearchAgentState :=
  let s' :=
    if fb.action = some "approve" then
      { s with status := .executing, current_step_index := 0 }
    else if fb.action = some "modify" then
      match fb.modified_plan, s.research_plan with
      | some patch, some _ =>
        let p' := { applyPlanPatch patch with
                      user_modified := true, modification_notes := fb.notes }
        { s with research_plan := some p'
                 status := .executing
                 current_step_index := 0 }
      | _, _ =>
        let s2 :=
          match s.research_plan with
          | some plan =>
            { s with research_plan := some { plan with modification_notes := fb.notes } }
          | none => s
        { s2 with status := .planning }
    else
      s.set_error "Research plan rejected by user"
  { s' with pending_hitl_event := none }

/-- handle_report_feedback (hitl_handlers.py). -/
def handle_report_feedback (s : ResearchAgentState) (fb : Feedback) :
    ResearchAgentState :=
  let s' :=
    if fb.action = some "approve" then s.complete_research
    else if fb.action = some "reject" then
      s.set_error "Final report rejected by user"
    else s
  { s' with pending_hitl_event := none }

/-- HITLManager.create_approval_request (hitl.py): records the pending
event and moves the session into the review phase matching the event
type. -/
def create_approval_request (s : ResearchAgentState) (event_type : String)
    (payload : String) : ResearchAgentState :=
  let ev : HITLEvent :=
    { event_type := event_type
      session_id := s.session_id
      payload := payload
      requires_response := true }
  let s' := { s with pending_hitl_event := some ev }
  if event_type = "plan_approval" then { s' with status := .plan_review }
  else if event_type = "final_report_approval" then { s' with status := .final_review }
  else s'

/-- HITLManager.handle_feedback (hitl.py) with the handler registry as
set up in graph.py: plan_approval dispatches to handle_plan_feedback,
final_report_approval to handle_report_feedback, anything else falls
back to clearing the event and storing the feedback action verbatim. -/
def handle_feedback (s : ResearchAgentState) (fb : Feedback) :
    ResearchAgentState :=
  match s.pending_hitl_event with
  | none => s
  | some ev =>
    if ev.event_type = "plan_approval" then handle_plan_feedback s fb
    else if ev.event_type = "final_report_approval" then handle_report_feedback s fb
    else { s with pending_hitl_event := none, human_feedback := fb.action }

/-- HITLManager.should_interrupt (hitl.py). -/
def should_interrupt (s : ResearchAgentState) : Bool :=
  match s.pending_hitl_event with
  | some ev => ev.requires_response
  | none => false

/-! ## Plan generation node, from
    src/agents/deep-research/src/deep_research_agent/nodes/plan_generation.py -/

/-- Outcome of the planner LLM call in generate_plan: either any
exception raised while invoking the LLM or parsing and validating its
reply, or the successfully built ResearchPlan. -/
inductive PlanOutcome where
  | exn (msg : String)
  | ok (plan : ResearchPlan)
deriving DecidableEq, Repr

/-- generate_plan (plan_generation.py): on success stores the plan,
resets the cursor to 0, moves to plan_review and records the
plan_approval event; on any exception sets the terminal error state. -/
def generate_plan (s : ResearchAgentState) (o : PlanOutcome) :
    ResearchAgentState :=
  match o with
  | .exn msg => s.set_error ("Failed to generate research plan: " ++ msg)
  | .ok plan =>
    let ev : HITLEvent :=
      { event_type := "plan_approval"
        session_id := s.session_id
        payload := "plan"
        requires_response := true }
    { s with research_plan := some plan
             current_step_index := 0
             status := .plan_review
             pending_hitl_event := some ev }

/-! ## Gather-verify-distill worker, from
    src/libs/agent-core/src/agent_core/core/nodes.py (BaseWorkerNode)
    and src/agents/deep-research/src/deep_research_agent/nodes/search_execution.py
    (DeepResearchWorkerNode, execute_task_node) -/

/-- One raw item returned by the gatherer (search_execution.py,
on_gather_complete). -/
structure GatherItem where
  url : String := ""
  title : String := ""
  content : String := ""
  score : ℚ := 0
deriving DecidableEq, Repr

/-- WorkerResult as produced by the gather phase (interfaces.py). -/
structure GatherResult where
  success : Bool
  data : List GatherItem := []
  error : Option String := none
deriving DecidableEq, Repr

/-- VerificationResult (interfaces.py). -/
structure VerificationResult where
  score : ℚ := 0
  passed : Bool := true
  feedback : String := ""
deriving DecidableEq, Repr

/-- WorkerResult as produced by the process (distillation) phase,
restricted to the fields on_process_complete reads. -/
structure ProcessResult where
  success : Bool
  content : String := ""
  sources : List String := []
  confidence : ℚ := 0
  error : Option String := none
deriving DecidableEq, Repr

/-- The three external calls of one worker invocation.  An error value
stands for an exception raised inside that phase. -/
structure WorkerOutcomes where
  gather : Except String GatherResult
  verify : Except String VerificationResult
  process : Except String ProcessResult
deriving Repr

/-- on_gather_complete (search_execution.py): convert each raw item
into a SearchResult appended to the step's result list. -/
def addGatherResults (s : ResearchAgentState) (step_id : String)
    (data : List GatherItem) : ResearchAgentState :=
  data.foldl
    (fun st item =>
      let r : SearchResult :=
        { url := item.url
          title := item.title
          content := item.content.take 1000
          snippet := item.content.take 200
          score := item.score
          source := "tavily" }
      st.add_search_result step_id r)
    s

/-- on_verify_complete (search_execution.py): a failed verification is
recorded as a quality warning and never blocks progress. -/
def on_verify_complete (s : ResearchAgentState) (step_id : String)
    (v : VerificationResult) : ResearchAgentState :=
  if v.passed then s
  else
    let warning := "Step " ++ step_id ++
      ": Critic Rejected Search Results (Ignored to ensure report generation). Feedback: " ++
      v.feedback
    { s with quality_warnings := s.quality_warnings ++ [warning] }

/-- update_step_status to failed with an error message (nodes.py). -/
def ResearchAgentState.markStepFailed (s : ResearchAgentState) (msg : String) :
    ResearchAgentState :=
  s.updateCurrentStep (fun st => { st with status := .failed, error_message := some msg })

/-- on_process_complete (search_execution.py): build the insight with
the union of the extracted sources and the raw search result URLs and
store it under the step id. -/
def storeInsight (s : ResearchAgentState) (step_id : String)
    (pr : ProcessResult) : ResearchAgentState :=
  let raw_urls := ((lookupD s.search_results step_id).getD []).map (fun r => r.url)
  let valid_raw := raw_urls.filter (fun u => u ≠ "")
  let valid_extracted := pr.sources.filter (fun u => u ≠ "")
  let all_sources := (valid_extracted ++ valid_raw.filter (fun u => u ∉ valid_extracted)).dedup
  let insight : ExtractedInsight :=
    { step_id := step_id
      content := pr.content
      sources := all_sources
      confidence := pr.confidence }
  s.add_insight insight

/-- BaseWorkerNode.__call__ specialised by DeepResearchWorkerNode
(nodes.py, search_execution.py).  The step at the cursor is marked
executing and the session status becomes executing; then the gather,
verify and process phases run in order, feeding the hooks above.  Any
exception (an error outcome), a failed gather, an empty gather or a
failed processing marks the step failed with the corresponding message
and returns the partially updated state; nothing ever propagates. -/
def worker_call (s : ResearchAgentState) (o : WorkerOutcomes) :
    ResearchAgentState :=
  match s.get_current_step with
  | none => s
  | some step0 =>
    let s := s.updateCurrentStep (fun st => { st with status := .executing })
    let s := { s with status := .executing }
    match o.gather with
    | .error e => s.markStepFailed e
    | .ok g =>
      if !g.success then
        s.markStepFailed ("Gather failed: " ++ g.error.getD "None")
      else
        let s := addGatherResults s step0.step_id g.data
        if g.data.isEmpty then
          -- the formatted gather text is empty: verification is skipped
          -- and the empty result short-circuits to a failed step
          s.markStepFailed "No results found"
        else
          match o.verify with
          | .error e => s.markStepFailed e
          | .ok v =>
            let s := on_verify_complete s step0.step_id v
            match o.process with
            | .error e => s.markStepFailed e
            | .ok pr =>
              if pr.success then
                let s := storeInsight s step0.step_id pr
                s.updateCurrentStep (fun st => { st with status := .completed })
              else
                s.markStepFailed ("Processing failed: " ++ pr.error.getD "None")

/-- execute_task_node (search_execution.py): the wrapper instantiates
the worker node and delegates to it; its own exception handler is
unreachable in the embedding because worker_call is total. -/
def execute_task_node (s : ResearchAgentState) (o : WorkerOutcomes) :
    ResearchAgentState :=
  worker_call s o

/-! ## Middleware pipeline, from
    src/src/deep_research_agent/middleware/base.py (MiddlewareManager)
    and src/libs/agent-core/src/agent_core/middleware/implementations.py
    (RecursionCircuitBreaker) -/

/-- One interceptor (middleware/base.py, Middleware).  Each hook is a
function that may raise, modelled by Except; the after hook receives
the node result alongside the state, exactly as wrap_node passes it. -/
structure Middleware where
  before_node_execution :
    String → ResearchAgentState → Except String ResearchAgentState
  after_node_execution :
    String → ResearchAgentState → ResearchAgentState → Except String ResearchAgentState
  on_error :
    String → ResearchAgentState → String → Except String ResearchAgentState

/-- The before-hook loop of wrap_node: hooks run in registration
order; a raising hook is logged and swallowed, execution continuing
with the state as of before that hook. -/
def runBeforeHooks (mws : List Middleware) (name : String)
    (s : ResearchAgentState) : ResearchAgentState :=
  mws.foldl
    (fun st m =>
      match m.before_node_execution name st with
      | .ok st' => st'
      | .error _ => st)
    s

/-- The after-hook loop of wrap_node, same swallowing discipline, in
the same registration order (not reversed). -/
def runAfterHooks (mws : List Middleware) (name : String)
    (s : ResearchAgentState) : ResearchAgentState :=
  mws.foldl
    (fun st m =>
      match m.after_node_execution name st st with
      | .ok st' => st'
      | .error _ => st)
    s

/-- The on-error loop of wrap_node, run over the pre-node state when
the node itself raised. -/
def runErrorHooks (mws : List Middleware) (name : String)
    (s : ResearchAgentState) (e : String) : ResearchAgentState :=
  mws.foldl
    (fun st m =>
      match m.on_error name st e with
      | .ok st' => st'
      | .error _ => st)
    s

/-- MiddlewareManager.wrap_node (middleware/base.py).  On node success
the after hooks post-process the result; on node failure the on-error
hooks run over the pre-node state and the original exception is
re-raised unchanged.  The error value carries both the original
message and the state left behind by the on-error hooks, since in the
source those hooks mutate the aliased state object in place before the
re-raise. -/
def wrap_node (mws : List Middleware)
    (node : ResearchAgentState → Except String ResearchAgentState)
    (name : String) (s : ResearchAgentState) :
    Except (String × ResearchAgentState) ResearchAgentState :=
  let s1 := runBeforeHooks mws name s
  match node s1 with
  | .ok r => .ok (runAfterHooks mws name r)
  | .error e => .error (e, runErrorHooks mws name s1 e)

/-- RecursionCircuitBreaker (implementations.py): the before hook
raises a RuntimeError when the step currently in scope has depth
strictly exceeding the configured maximum; the after and on-error
hooks are the BaseMiddleware defaults returning the state unchanged. -/
def recursionCircuitBreaker (max_depth : Nat) : Middleware :=
  { before_node_execution := fun _ s =>
      match s.get_current_step with
      | some step =>
        if step.depth > max_depth then
          .error ("Recursion Circuit Broken: Step depth " ++ toString step.depth ++
            " exceeds limit " ++ toString max_depth)
        else .ok s
      | none => .ok s
    after_node_execution := fun _ s _ => .ok s
    on_error := fun _ s _ => .ok s }

/-- Instrumentation middleware used to state the ordering theorem: each
hook appends a tagged entry to the metadata scratch list and succeeds.
Any Python object implementing the Middleware interface may behave
this way, so properties proved for all tag lists exhibit the order in
which wrap_node drives the hooks. -/
def tagMW (tag : String) : Middleware :=
  { before_node_execution := fun _ s =>
      .ok { s with metadata := s.metadata ++ [tag ++ ":before"] }
    after_node_execution := fun _ s _ =>
      .ok { s with metadata := s.metadata ++ [tag ++ ":after"] }
    on_error := fun _ s e =>
      .ok { s with metadata := s.metadata ++ [tag ++ ":onerror:" ++ e] } }

/-- Instrumentation middleware whose every hook raises, used to state
the hook-failure-swallowing theorem. -/
def crashMW : Middleware :=
  { before_node_execution := fun _ _ => .error "before hook failed"
    after_node_execution := fun _ _ _ => .error "after hook failed"
    on_error := fun _ _ _ => .error "onerror hook failed" }

/-- A node that records its execution in the metadata list and
succeeds. -/
def okNode (s : ResearchAgentState) : Except String ResearchAgentState :=
  .ok { s with metadata := s.metadata ++ ["node"] }

/-- A node that raises with the given message. -/
def failNode (e : String) (_s : ResearchAgentState) :
    Except String ResearchAgentState :=
  .error e

/-! ## Cosine similarity, from
    src/libs/agent-core/src/agent_core/core/context_manager.py -/

/-- ContextManager._cosine_similarity (context_manager.py): 0 when
either vector is empty or the lengths differ or either norm is zero;
otherwise the dot product over the product of the Euclidean norms.
Floats are idealised as real numbers. -/
noncomputable def cosine_similarity (vec1 vec2 : List ℝ) : ℝ :=
  if vec1 = [] ∨ vec2 = [] ∨ vec1.length ≠ vec2.length then 0
  else
    let dot_product := ((vec1.zip vec2).map (fun p => p.1 * p.2)).sum
    let norm_a := Real.sqrt ((vec1.map (fun a => a * a)).sum)
    let norm_b := Real.sqrt ((vec2.map (fun b => b * b)).sum)
    if norm_a = 0 ∨ norm_b = 0 then 0
    else dot_product / (norm_a * norm_b)

/-! ## Specification helpers and concrete fixtures -/

/-- The steps of the current plan, or the empty list when no plan
exists. -/
def planSteps (s : ResearchAgentState) : List ResearchStep :=
  match s.research_plan with
  | some p => p.steps
  | none => []

/-- The number of steps of the current plan (0 without a plan). -/
def planLen (s : ResearchAgentState) : Nat :=
  (planSteps s).length

/-- The cursor invariant of spec section 8: whenever a plan exists the
cursor is a valid insertion point, 0 ≤ index ≤ number of steps. -/
def CursorInv (s : ResearchAgentState) : Prop :=
  ∀ p : ResearchPlan, s.research_plan = some p →
    0 ≤ s.current_step_index ∧ s.current_step_index ≤ p.steps.length

/-- The message with which one worker invocation fails, if any phase of
worker_call fails: the summary of the branch structure of the try block
of BaseWorkerNode.__call__. -/
def workerFailure (o : WorkerOutcomes) : Option String :=
  match o.gather with
  | .error e => some e
  | .ok g =>
    if !g.success then some ("Gather failed: " ++ g.error.getD "None")
    else if g.data.isEmpty then some "No results found"
    else
      match o.verify with
      | .error e => some e
      | .ok _ =>
        match o.process with
        | .error e => some e
        | .ok pr =>
          if pr.success then none
          else some ("Processing failed: " ++ pr.error.getD "None")

/-- Fixture: a root research step. -/
def tStepA : ResearchStep :=
  { step_id := "step_1", title := "A", description := "a",
    keywords := ["k"], expected_output := "oa" }

/-- Fixture: a second root research step. -/
def tStepB : ResearchStep :=
  { step_id := "step_2", title := "B", description := "b",
    keywords := [], expected_output := "ob" }

/-- Fixture: an insight already extracted for the first step. -/
def tInsightA : ExtractedInsight :=
  { step_id := "step_1", content := "found", sources := ["u"] }

/-- Fixture: a two-step plan. -/
def tPlan : ResearchPlan :=
  { topic := "t", objective := "o", steps := [tStepA, tStepB] }

/-- Fixture: a session state with the two-step plan, the cursor on the
first step and an insight stored for it. -/
def tState : ResearchAgentState :=
  { user_query := "q", session_id := "sess",
    research_plan := some tPlan,
    extracted_insights := [("step_1", tInsightA)] }

/-- Fixture: a candidate sub-step returned by the judgment call. -/
def subData1 : NewStepData := { title := "s1" }

/-- Fixture: a second candidate sub-step. -/
def subData2 : NewStepData := { title := "s2" }

/-- Fixture: a step whose depth exceeds the circuit-breaker bound of 5
configured in graph.py. -/
def cexDeepStep : ResearchStep := { tStepA with depth := 6 }

/-- Fixture: a session executing a step of depth 6. -/
def cexDeepState : ResearchAgentState :=
  { user_query := "q", session_id := "sess", status := .executing,
    research_plan := some { topic := "t", objective := "o", steps := [cexDeepStep] } }

/-- Fixture: the same session after okNode ran through the wrapped
pipeline. -/
def cexAfterState : ResearchAgentState :=
  { cexDeepState with metadata := ["node"] }

/-- Fixture: worker outcomes whose gather phase raises. -/
def failOutcomes : WorkerOutcomes :=
  { gather := .error "network down"
    verify := .ok {}
    process := .ok { success := true } }

/-- Fixture: a session paused at plan review with the pending
plan_approval event. -/
def reviewState : ResearchAgentState :=
  let ev : HITLEvent := { event_type := "plan_approval", session_id := "sess" }
  { tState with status := .plan_review, pending_hitl_event := some ev }

/-- Fixture: the reject feedback payload. -/
def rejectFeedback : Feedback := { action := some "reject" }

/-- Fixture: a step exactly at the maximum recursion depth. -/
def boundaryStep : ResearchStep := { tStepA with depth := 3 }

/-- Fixture: a session whose current step sits exactly at the maximum
recursion depth, with an insight stored for it. -/
def boundaryState : ResearchAgentState :=
  let p : ResearchPlan := { topic := "t", objective := "o", steps := [boundaryStep] }
  { tState with research_plan := some p }

/-- Two states agree on the cursor, the plan length and the presence of
a plan: the shape the cursor invariant depends on. -/
def SameShape (a b : ResearchAgentState) : Prop :=
  a.current_step_index = b.current_step_index ∧
  planLen a = planLen b ∧
  a.research_plan.isSome = b.research_plan.isSome

/-! ## Helper lemmas -/

lemma get_current_step_congr {a b : ResearchAgentState}
    (h1 : a.research_plan = b.research_plan)
    (h2 : a.current_step_index = b.current_step_index) :
    a.get_current_step = b.get_current_step := by
  unfold ResearchAgentState.get_current_step
  rw [h1, h2]

lemma get_current_step_some {s : ResearchAgentState} {st : ResearchStep}
    (h : s.get_current_step = some st) :
    ∃ p : ResearchPlan, s.research_plan = some p ∧
      0 ≤ s.current_step_index ∧ s.current_step_index < p.steps.length ∧
      p.steps.get? s.current_step_index.toNat = some st := by
  unfold ResearchAgentState.get_current_step at h
  cases hp : s.research_plan with
  | none => simp [hp] at h
  | some p =>
    simp only [hp] at h
    unfold ResearchPlan.get_current_step at h
    split at h
    · next hcond => exact ⟨p, rfl, hcond.1, hcond.2, h⟩
    · exact absurd h (by simp)

lemma planLen_congr {a b : ResearchAgentState}
    (h : a.research_plan = b.research_plan) : planLen a = planLen b := by
  unfold planLen planSteps
  rw [h]

lemma planSteps_congr {a b : ResearchAgentState}
    (h : a.research_plan = b.research_plan) : planSteps a = planSteps b := by
  unfold planSteps
  rw [h]

lemma updateCurrentStep_fields (s : ResearchAgentState)
    (f : ResearchStep → ResearchStep) :
    (s.updateCurrentStep f).current_step_index = s.current_step_index ∧
    (s.updateCurrentStep f).status = s.status ∧
    (s.updateCurrentStep f).extracted_insights = s.extracted_insights ∧
    (s.updateCurrentStep f).pending_hitl_event = s.pending_hitl_event ∧
    planLen (s.updateCurrentStep f) = planLen s ∧
    (s.updateCurrentStep f).research_plan.isSome = s.research_plan.isSome := by
  unfold ResearchAgentState.updateCurrentStep
  split
  · exact ⟨rfl, rfl, rfl, rfl, rfl, rfl⟩
  · next p hp =>
    split
    · exact ⟨rfl, rfl, rfl, rfl, rfl, rfl⟩
    · next st hst =>
      refine ⟨rfl, rfl, rfl, rfl, ?_, ?_⟩
      · simp [planLen, planSteps, hp]
      · simp [hp]

lemma updateCurrentStep_get {s : ResearchAgentState} {st : ResearchStep}
    (f : ResearchStep → ResearchStep) (h : s.get_current_step = some st) :
    (s.updateCurrentStep f).get_current_step = some (f st) := by
  obtain ⟨p, hp, h0, hlt, hget⟩ := get_current_step_some h
  have hcur : p.get_current_step s.current_step_index = some st := by
    unfold ResearchPlan.get_current_step
    rw [if_pos ⟨h0, hlt⟩]
    exact hget
  have htoNat : s.current_step_index.toNat < p.steps.length := by omega
  unfold ResearchAgentState.updateCurrentStep
  simp only [hp, hcur]
  unfold ResearchAgentState.get_current_step ResearchPlan.get_current_step
  simp only [List.length_set]
  rw [if_pos ⟨h0, hlt⟩]
  exact List.get?_set_eq_of_lt _ htoNat

lemma insert_steps_fields (s : ResearchAgentState) (new : List ResearchStep) :
    (s.insert_steps_after_current new).current_step_index = s.current_step_index ∧
    (s.insert_steps_after_current new).status = s.status ∧
    (s.insert_steps_after_current new).extracted_insights = s.extracted_insights ∧
    (s.insert_steps_after_current new).pending_hitl_event = s.pending_hitl_event ∧
    (s.insert_steps_after_current new).research_plan.isSome = s.research_plan.isSome ∧
    planLen s ≤ planLen (s.insert_steps_after_current new) ∧
    (∀ x ∈ planSteps (s.insert_steps_after_current new),
       x ∈ planSteps s ∨ x ∈ new) := by
  unfold ResearchAgentState.insert_steps_after_current
  split
  · exact ⟨rfl, rfl, rfl, rfl, rfl, le_refl _, fun x hx => Or.inl hx⟩
  · next p hp =>
    refine ⟨rfl, rfl, rfl, rfl, by simp [hp], ?_, ?_⟩
    · simp only [planLen, planSteps, hp, List.length_append, List.length_take,
        List.length_drop]
      omega
    · intro x hx
      simp only [planSteps, hp, List.mem_append] at hx
      rcases hx with (hx | hx) | hx
      · exact Or.inl (by simpa [planSteps, hp] using List.take_subset _ _ hx)
      · exact Or.inr hx
      · exact Or.inl (by simpa [planSteps, hp] using List.drop_subset _ _ hx)

lemma insert_steps_steps {s : ResearchAgentState} {p : ResearchPlan}
    (new : List ResearchStep) (hp : s.research_plan = some p) :
    (s.insert_steps_after_current new).research_plan =
      some { p with steps :=
        p.steps.take (s.current_step_index + 1).toNat ++ new ++
          p.steps.drop (s.current_step_index + 1).toNat } := by
  unfold ResearchAgentState.insert_steps_after_current
  simp only [hp]

lemma evaluate_no_step {s : ResearchAgentState} (j : JudgmentOutcome)
    (h : s.get_current_step = none) : evaluate_task_result s j = s := by
  unfold evaluate_task_result
  simp only [h]

lemma evaluate_exn {s : ResearchAgentState} {st : ResearchStep} (m : String)
    (h : s.get_current_step = some st) :
    evaluate_task_result s (.exn m) =
      { s with current_step_index := s.current_step_index + 1 } := by
  unfold evaluate_task_result
  simp only [h]
  split <;> rfl

lemma evaluate_cases {s : ResearchAgentState} {st : ResearchStep}
    (j : JudgmentOutcome) (h : s.get_current_step = some st) :
    evaluate_task_result s j =
        { s with current_step_index := s.current_step_index + 1 } ∨
      (st.depth < MAX_RECURSION_DEPTH ∧
       ∃ new : List ResearchStep, new ≠ [] ∧
         (∀ n ∈ new, n.depth = st.depth + 1) ∧
         evaluate_task_result s j =
           { s.insert_steps_after_current new with
               current_step_index := s.current_step_index + 1 }) := by
  unfold evaluate_task_result
  simp only [h]
  by_cases hdep : st.depth < MAX_RECURSION_DEPTH
  · have hdec : decide (st.depth < MAX_RECURSION_DEPTH) = true := decide_eq_true hdep
    cases hins : (lookupD s.extracted_insights st.step_id).isSome with
    | false => left; simp [hins]
    | true =>
      simp only [hins, hdec, Bool.true_and]
      rw [if_pos trivial]
      split
      · left; rfl
      · rename_i status data
        by_cases hstat : status = "NEEDS_MORE_INFO"
        · rw [if_pos hstat]
          cases hdata : data.enum.map (fun p => materializeSubStep st p.1 p.2) with
          | nil => left; simp [hdata]
          | cons a l =>
            right
            refine ⟨hdep, a :: l, by simp, ?_, ?_⟩
            · intro n hn
              have hmem : n ∈ data.enum.map (fun p => materializeSubStep st p.1 p.2) := by
                rw [hdata]; exact hn
              obtain ⟨q, _, hq⟩ := List.mem_map.mp hmem
              rw [← hq]
              rfl
            · have hidx := (insert_steps_fields s (a :: l)).1
              simp only [List.isEmpty_cons, Bool.false_eq_true, if_false]
              congr 1
              omega
        · left
          rw [if_neg hstat]
  · left
    have hdec : decide (st.depth < MAX_RECURSION_DEPTH) = false := decide_eq_false hdep
    simp [hdec]

lemma addGatherResults_fields (s : ResearchAgentState) (sid : String)
    (data : List GatherItem) :
    (addGatherResults s sid data).research_plan = s.research_plan ∧
    (addGatherResults s sid data).current_step_index = s.current_step_index ∧
    (addGatherResults s sid data).extracted_insights = s.extracted_insights ∧
    (addGatherResults s sid data).status = s.status ∧
    (addGatherResults s sid data).quality_warnings = s.quality_warnings := by
  induction data generalizing s with
  | nil => exact ⟨rfl, rfl, rfl, rfl, rfl⟩
  | cons x xs ih =>
    have step := ih (s.add_search_result sid
      { url := x.url, title := x.title, content := x.content.take 1000,
        snippet := x.content.take 200, score := x.score, source := "tavily" })
    exact step

lemma on_verify_complete_fields (s : ResearchAgentState) (sid : String)
    (v : VerificationResult) :
    (on_verify_complete s sid v).research_plan = s.research_plan ∧
    (on_verify_complete s sid v).current_step_index = s.current_step_index ∧
    (on_verify_complete s sid v).extracted_insights = s.extracted_insights ∧
    (on_verify_complete s sid v).status = s.status := by
  unfold on_verify_complete
  split <;> exact ⟨rfl, rfl, rfl, rfl⟩

lemma markStepFailed_get {s : ResearchAgentState} {st : ResearchStep}
    (msg : String) (h : s.get_current_step = some st) :
    (s.markStepFailed msg).get_current_step =
      some { st with status := .failed, error_message := some msg } := by
  unfold ResearchAgentState.markStepFailed
  exact updateCurrentStep_get _ h

lemma worker_failure_result {s : ResearchAgentState} {st : ResearchStep}
    {o : WorkerOutcomes} {msg : String}
    (hstep : s.get_current_step = some st)
    (hfail : workerFailure o = some msg) :
    (worker_call s o).get_current_step =
        some { st with status := .failed, error_message := some msg } ∧
    (worker_call s o).status = AgentStatus.executing ∧
    (worker_call s o).extracted_insights = s.extracted_insights ∧
    (worker_call s o).current_step_index = s.current_step_index ∧
    planLen (worker_call s o) = planLen s := by
  obtain ⟨og, ov, op⟩ := o
  have step_lemma : ∀ (t : ResearchAgentState) (m : String),
      t.get_current_step = some { st with status := .executing } →
      t.status = .executing →
      t.extracted_insights = s.extracted_insights →
      t.current_step_index = s.current_step_index →
      planLen t = planLen s →
      (t.markStepFailed m).get_current_step =
          some { st with status := .failed, error_message := some m } ∧
      (t.markStepFailed m).status = AgentStatus.executing ∧
      (t.markStepFailed m).extracted_insights = s.extracted_insights ∧
      (t.markStepFailed m).current_step_index = s.current_step_index ∧
      planLen (t.markStepFailed m) = planLen s := by
    intro t m h1 h2 h3 h4 h5
    have hfields := updateCurrentStep_fields t
      (fun x => { x with status := .failed, error_message := some m })
    refine ⟨?_, ?_, ?_, ?_, ?_⟩
    · exact @markStepFailed_get t { st with status := .executing } m h1
    · exact hfields.2.1.trans h2
    · exact hfields.2.2.1.trans h3
    · exact hfields.1.trans h4
    · exact hfields.2.2.2.2.1.trans h5
  -- the state after marking the step executing and the session executing
  set s2 := s.updateCurrentStep (fun x => { x with status := .executing }) with hs2
  set s3 : ResearchAgentState := { s2 with status := .executing } with hs3
  have hfields2 := updateCurrentStep_fields s
    (fun x => { x with status := .executing })
  have h3get : s3.get_current_step = some { st with status := .executing } := by
    exact (get_current_step_congr (a := s3) (b := s2) rfl rfl).trans
      (updateCurrentStep_get _ hstep)
  have h3status : s3.status = AgentStatus.executing := rfl
  have h3ins : s3.extracted_insights = s.extracted_insights := hfields2.2.2.1
  have h3idx : s3.current_step_index = s.current_step_index := hfields2.1
  have h3len : planLen s3 = planLen s := by
    rw [planLen_congr (a := s3) (b := s2) rfl]; exact hfields2.2.2.2.2.1
  -- the same facts after appending the gather results
  have addg : ∀ (sid : String) (data : List GatherItem),
      (addGatherResults s3 sid data).get_current_step =
          some { st with status := .executing } ∧
      (addGatherResults s3 sid data).status = AgentStatus.executing ∧
      (addGatherResults s3 sid data).extracted_insights = s.extracted_insights ∧
      (addGatherResults s3 sid data).current_step_index = s.current_step_index ∧
      planLen (addGatherResults s3 sid data) = planLen s := by
    intro sid data
    have hf := addGatherResults_fields s3 sid data
    refine ⟨?_, ?_, ?_, ?_, ?_⟩
    · exact (get_current_step_congr hf.1 hf.2.1).trans h3get
    · exact hf.2.2.2.1.trans h3status
    · exact hf.2.2.1.trans h3ins
    · exact hf.2.1.trans h3idx
    · exact (planLen_congr hf.1).trans h3len
  -- and after the verification hook
  have verifg : ∀ (sid : String) (data : List GatherItem) (v : VerificationResult),
      (on_verify_complete (addGatherResults s3 sid data) sid v).get_current_step =
          some { st with status := .executing } ∧
      (on_verify_complete (addGatherResults s3 sid data) sid v).status =
          AgentStatus.executing ∧
      (on_verify_complete (addGatherResults s3 sid data) sid v).extracted_insights =
          s.extracted_insights ∧
      (on_verify_complete (addGatherResults s3 sid data) sid v).current_step_index =
          s.current_step_index ∧
      planLen (on_verify_complete (addGatherResults s3 sid data) sid v) = planLen s := by
    intro sid data v
    have ha := addg sid data
    have hf := on_verify_complete_fields (addGatherResults s3 sid data) sid v
    refine ⟨?_, ?_, ?_, ?_, ?_⟩
    · exact (get_current_step_congr hf.1 hf.2.1).trans ha.1
    · exact hf.2.2.2.trans ha.2.1
    · exact hf.2.2.1.trans ha.2.2.1
    · exact hf.2.1.trans ha.2.2.2.1
    · exact (planLen_congr hf.1).trans ha.2.2.2.2
  unfold worker_call
  simp only [hstep]
  unfold workerFailure at hfail
  cases og with
  | error e =>
    simp only at hfail
    obtain rfl : e = msg := by injection hfail
    exact step_lemma s3 _ h3get h3status h3ins h3idx h3len
  | ok g =>
    simp only at hfail
    by_cases hsucc : g.success = true
    · rw [if_neg (by simp [hsucc])] at hfail
      simp only [hsucc, Bool.not_true, Bool.false_eq_true, if_false]
      by_cases hemp : g.data.isEmpty = true
      · rw [if_pos hemp] at hfail
        obtain rfl : "No results found" = msg := by injection hfail
        rw [if_pos hemp]
        have ha := addg st.step_id g.data
        exact step_lemma _ _ ha.1 ha.2.1 ha.2.2.1 ha.2.2.2.1 ha.2.2.2.2
      · rw [if_neg hemp] at hfail
        rw [if_neg hemp]
        cases ov with
        | error e =>
          simp only at hfail
          obtain rfl : e = msg := by injection hfail
          have ha := addg st.step_id g.data
          exact step_lemma _ _ ha.1 ha.2.1 ha.2.2.1 ha.2.2.2.1 ha.2.2.2.2
        | ok v =>
          simp only at hfail
          cases op with
          | error e =>
            simp only at hfail
            obtain rfl : e = msg := by injection hfail
            have hv := verifg st.step_id g.data v
            exact step_lemma _ _ hv.1 hv.2.1 hv.2.2.1 hv.2.2.2.1 hv.2.2.2.2
          | ok pr =>
            simp only at hfail
            by_cases hpr : pr.success = true
            · rw [if_pos hpr] at hfail
              exact absurd hfail (by simp)
            · rw [if_neg hpr] at hfail
              obtain rfl : "Processing failed: " ++ pr.error.getD "None" = msg := by
                injection hfail
              simp only [Bool.not_eq_true] at hpr
              simp only [hpr, Bool.false_eq_true, if_false]
              have hv := verifg st.step_id g.data v
              exact step_lemma _ _ hv.1 hv.2.1 hv.2.2.1 hv.2.2.2.1 hv.2.2.2.2
    · simp only [Bool.not_eq_true] at hsucc
      rw [if_pos (by simp [hsucc])] at hfail
      obtain rfl : "Gather failed: " ++ g.error.getD "None" = msg := by
        injection hfail
      simp only [hsucc, Bool.not_false, if_true]
      exact step_lemma s3 _ h3get h3status h3ins h3idx h3len

lemma sameShape_refl (a : ResearchAgentState) : SameShape a a :=
  ⟨rfl, rfl, rfl⟩

lemma sameShape_trans {a b c : ResearchAgentState}
    (h1 : SameShape a b) (h2 : SameShape b c) : SameShape a c :=
  ⟨h1.1.trans h2.1, h1.2.1.trans h2.2.1, h1.2.2.trans h2.2.2⟩

lemma sameShape_of_plan_eq {a b : ResearchAgentState}
    (h1 : a.research_plan = b.research_plan)
    (h2 : a.current_step_index = b.current_step_index) : SameShape a b :=
  ⟨h2, planLen_congr h1, by rw [h1]⟩

lemma sameShape_update (t : ResearchAgentState) (f : ResearchStep → ResearchStep) :
    SameShape (t.updateCurrentStep f) t :=
  ⟨(updateCurrentStep_fields t f).1, (updateCurrentStep_fields t f).2.2.2.2.1,
   (updateCurrentStep_fields t f).2.2.2.2.2⟩

lemma sameShape_addGather (t : ResearchAgentState) (sid : String)
    (data : List GatherItem) : SameShape (addGatherResults t sid data) t :=
  sameShape_of_plan_eq (addGatherResults_fields t sid data).1
    (addGatherResults_fields t sid data).2.1

lemma sameShape_verify (t : ResearchAgentState) (sid : String)
    (v : VerificationResult) : SameShape (on_verify_complete t sid v) t :=
  sameShape_of_plan_eq (on_verify_complete_fields t sid v).1
    (on_verify_complete_fields t sid v).2.1

lemma sameShape_store (t : ResearchAgentState) (sid : String)
    (pr : ProcessResult) : SameShape (storeInsight t sid pr) t :=
  sameShape_of_plan_eq rfl rfl

lemma worker_call_shape (s : ResearchAgentState) (o : WorkerOutcomes) :
    SameShape (worker_call s o) s := by
  obtain ⟨og, ov, op⟩ := o
  unfold worker_call
  cases hstep : s.get_current_step with
  | none => exact sameShape_refl s
  | some st =>
    simp only
    have h3 : SameShape
        ({ s.updateCurrentStep (fun x => { x with status := .executing }) with
            status := .executing }) s :=
      sameShape_trans
        (b := s.updateCurrentStep (fun x => { x with status := .executing }))
        (sameShape_of_plan_eq rfl rfl)
        (sameShape_update s (fun x => { x with status := .executing }))
    set s3 : ResearchAgentState :=
      { s.updateCurrentStep (fun x => { x with status := .executing }) with
          status := .executing } with hs3
    cases og with
    | error e => exact sameShape_trans (sameShape_update s3 _) h3
    | ok g =>
      by_cases hsucc : g.success = true
      · simp only [hsucc, Bool.not_true, Bool.false_eq_true, if_false]
        by_cases hemp : g.data.isEmpty = true
        · simp only [hemp, eq_self_iff_true, if_true]
          exact sameShape_trans (sameShape_update _ _)
            (sameShape_trans (sameShape_addGather s3 _ _) h3)
        · simp only [Bool.not_eq_true] at hemp
          simp only [hemp, Bool.false_eq_true, if_false]
          cases ov with
          | error e =>
            exact sameShape_trans (sameShape_update _ _)
              (sameShape_trans (sameShape_addGather s3 _ _) h3)
          | ok v =>
            simp only
            cases op with
            | error e =>
              exact sameShape_trans (sameShape_update _ _)
                (sameShape_trans (sameShape_verify _ _ _)
                  (sameShape_trans (sameShape_addGather s3 _ _) h3))
            | ok pr =>
              by_cases hpr : pr.success = true
              · simp only [hpr, eq_self_iff_true, if_true]
                exact sameShape_trans (sameShape_update _ _)
                  (sameShape_trans (sameShape_store _ _ _)
                    (sameShape_trans (sameShape_verify _ _ _)
                      (sameShape_trans (sameShape_addGather s3 _ _) h3)))
              · simp only [Bool.not_eq_true] at hpr
                simp only [hpr, Bool.false_eq_true, if_false]
                exact sameShape_trans (sameShape_update _ _)
                  (sameShape_trans (sameShape_verify _ _ _)
                    (sameShape_trans (sameShape_addGather s3 _ _) h3))
      · simp only [Bool.not_eq_true] at hsucc
        simp only [hsucc, Bool.not_false, if_true]
        exact sameShape_trans (sameShape_update s3 _) h3

lemma runBeforeHooks_tagMW (tags : List String) (n : String)
    (s : ResearchAgentState) :
    runBeforeHooks (tags.map tagMW) n s =
      { s with metadata := s.metadata ++ tags.map (fun t => t ++ ":before") } := by
  induction tags generalizing s with
  | nil => simp [runBeforeHooks]
  | cons t ts ih =>
    show runBeforeHooks (ts.map tagMW) n
        { s with metadata := s.metadata ++ [t ++ ":before"] } = _
    rw [ih]
    simp [List.append_assoc]

lemma runAfterHooks_tagMW (tags : List String) (n : String)
    (s : ResearchAgentState) :
    runAfterHooks (tags.map tagMW) n s =
      { s with metadata := s.metadata ++ tags.map (fun t => t ++ ":after") } := by
  induction tags generalizing s with
  | nil => simp [runAfterHooks]
  | cons t ts ih =>
    show runAfterHooks (ts.map tagMW) n
        { s with metadata := s.metadata ++ [t ++ ":after"] } = _
    rw [ih]
    simp [List.append_assoc]

lemma runErrorHooks_tagMW (tags : List String) (n : String)
    (s : ResearchAgentState) (e : String) :
    runErrorHooks (tags.map tagMW) n s e =
      { s with metadata := s.metadata ++ tags.map (fun t => t ++ ":onerror:" ++ e) } := by
  induction tags generalizing s with
  | nil => simp [runErrorHooks]
  | cons t ts ih =>
    show runErrorHooks (ts.map tagMW) n
        { s with metadata := s.metadata ++ [t ++ ":onerror:" ++ e] } e = _
    rw [ih]
    simp [List.append_assoc]

lemma cursorInv_of_sameShape {a b : ResearchAgentState}
    (h : SameShape a b) (hb : CursorInv b) : CursorInv a := by
  obtain ⟨hidx, hplanlen, hsome_eq⟩ := h
  intro p hp
  have hsome : b.research_plan.isSome = true := by
    rw [← hsome_eq, hp]
    rfl
  obtain ⟨q, hq⟩ := Option.isSome_iff_exists.mp hsome
  have hbq := hb q hq
  have h1 : planLen a = p.steps.length := by
    unfold planLen planSteps
    rw [hp]
  have h2 : planLen b = q.steps.length := by
    unfold planLen planSteps
    rw [hq]
  rw [hidx]
  omega

lemma wrap_node_ok {mws : List Middleware}
    {node : ResearchAgentState → Except String ResearchAgentState}
    {n : String} {s r : ResearchAgentState}
    (hnode : node (runBeforeHooks mws n s) = .ok r) :
    wrap_node mws node n s = .ok (runAfterHooks mws n r) := by
  simp only [wrap_node]
  rw [hnode]

lemma wrap_node_error {mws : List Middleware}
    {node : ResearchAgentState → Except String ResearchAgentState}
    {n : String} {s : ResearchAgentState} {e : String}
    (hnode : node (runBeforeHooks mws n s) = .error e) :
    wrap_node mws node n s =
      .error (e, runErrorHooks mws n (runBeforeHooks mws n s) e) := by
  simp only [wrap_node]
  rw [hnode]

/-! ## Claim theorems -/

/-- C9: move_to_next_step increments the cursor and returns true
exactly when a plan exists and the cursor is strictly below
length - 1; in every other case (at the last step, beyond it, or with
no plan) it leaves the state unchanged and returns false.  Hence it
never newly produces the exhaustion signal index = length. -/
theorem move_to_next_step_spec (s : ResearchAgentState) :
    (∀ p : ResearchPlan, s.research_plan = some p →
      (((s.move_to_next_step).2 = true) ↔
          s.current_step_index < (p.steps.length : Int) - 1) ∧
      ((s.move_to_next_step).2 = true →
        (s.move_to_next_step).1.current_step_index = s.current_step_index + 1) ∧
      ((s.move_to_next_step).2 = false → (s.move_to_next_step).1 = s) ∧
      (s.current_step_index ≠ (p.steps.length : Int) →
        (s.move_to_next_step).1.current_step_index ≠ (p.steps.length : Int))) ∧
    (s.research_plan = none → s.move_to_next_step = (s, false)) := by
  constructor
  · intro p hp
    unfold ResearchAgentState.move_to_next_step
    simp only [hp]
    by_cases hlt : s.current_step_index < (p.steps.length : Int) - 1
    · rw [if_pos hlt]
      refine ⟨by simp [hlt], fun _ => rfl, by simp, fun _ => ?_⟩
      show s.current_step_index + 1 ≠ (p.steps.length : Int)
      omega
    · rw [if_neg hlt]
      exact ⟨by simp [hlt], by simp, fun _ => rfl, fun hne => hne⟩
  · intro hp
    unfold ResearchAgentState.move_to_next_step
    simp only [hp]

/-- Witness for C9 at the two-step fixture plan with the cursor on the
first step. -/
theorem move_to_next_step_spec_witness :
    (tState.move_to_next_step).2 = true ∧
    (tState.move_to_next_step).1.current_step_index = 1 ∧
    (tState.move_to_next_step).1.current_step_index ≠ 2 := by
  have h := (move_to_next_step_spec tState).1 tPlan rfl
  have ht : (tState.move_to_next_step).2 = true := h.1.mpr (by decide)
  refine ⟨ht, (h.2.1 ht).trans (by decide), h.2.2.2 (by decide)⟩

/-- C10: the cosine similarity primitive is total and never divides by
zero: it returns 0 when either vector is empty, when the lengths
differ, or when either norm is 0, and otherwise returns the dot
product divided by the (provably nonzero) product of the norms. -/
theorem cosine_similarity_total (v1 v2 : List ℝ) :
    (v1 = [] ∨ v2 = [] ∨ v1.length ≠ v2.length →
       cosine_similarity v1 v2 = 0) ∧
    (Real.sqrt ((v1.map (fun a => a * a)).sum) = 0 ∨
       Real.sqrt ((v2.map (fun b => b * b)).sum) = 0 →
       cosine_similarity v1 v2 = 0) ∧
    (v1 ≠ [] → v2 ≠ [] → v1.length = v2.length →
       Real.sqrt ((v1.map (fun a => a * a)).sum) ≠ 0 →
       Real.sqrt ((v2.map (fun b => b * b)).sum) ≠ 0 →
       Real.sqrt ((v1.map (fun a => a * a)).sum) *
           Real.sqrt ((v2.map (fun b => b * b)).sum) ≠ 0 ∧
         cosine_similarity v1 v2 =
           ((v1.zip v2).map (fun p => p.1 * p.2)).sum /
             (Real.sqrt ((v1.map (fun a => a * a)).sum) *
               Real.sqrt ((v2.map (fun b => b * b)).sum))) := by
  refine ⟨?_, ?_, ?_⟩
  · intro h
    simp only [cosine_similarity]
    rw [if_pos h]
  · intro h
    simp only [cosine_similarity]
    by_cases hguard : v1 = [] ∨ v2 = [] ∨ v1.length ≠ v2.length
    · rw [if_pos hguard]
    · rw [if_neg hguard, if_pos h]
  · intro h1 h2 h3 h4 h5
    have hguard : ¬(v1 = [] ∨ v2 = [] ∨ v1.length ≠ v2.length) := by
      push_neg
      exact ⟨h1, h2, h3⟩
    refine ⟨mul_ne_zero h4 h5, ?_⟩
    simp only [cosine_similarity]
    rw [if_neg hguard, if_neg (by push_neg; exact ⟨h4, h5⟩)]

/-- Witness for C10 at the singleton vectors. -/
theorem cosine_similarity_total_witness :
    Real.sqrt ((([1] : List ℝ).map (fun a => a * a)).sum) ≠ 0 ∧
    cosine_similarity [1] [1] =
      ((([1] : List ℝ).zip ([1] : List ℝ)).map (fun p => p.1 * p.2)).sum /
        (Real.sqrt ((([1] : List ℝ).map (fun a => a * a)).sum) *
          Real.sqrt ((([1] : List ℝ).map (fun b => b * b)).sum)) := by
  have hs : Real.sqrt ((([1] : List ℝ).map (fun a => a * a)).sum) ≠ 0 := by
    simp [Real.sqrt_one]
  have h := (cosine_similarity_total [1] [1]).2.2 (by simp) (by simp) rfl hs hs
  exact ⟨hs, h.2⟩

/-- C8: submitting reject feedback against a pending plan_approval
event yields terminal error status carrying the message "Research plan
rejected by user" (which contains "rejected by user"), clears the
pending event, and the resume routing goes straight to END with the
plan and the cursor untouched, so no research step executes. -/
theorem plan_rejection_terminal (s : ResearchAgentState) (fb : Feedback)
    (ev : HITLEvent) (hev : s.pending_hitl_event = some ev)
    (het : ev.event_type = "plan_approval")
    (hact : fb.action = some "reject") :
    (handle_feedback s fb).status = .error ∧
    (handle_feedback s fb).error_message =
        some "Research plan rejected by user" ∧
    (∃ pre post : String,
       "Research plan rejected by user" = pre ++ "rejected by user" ++ post) ∧
    (handle_feedback s fb).pending_hitl_event = none ∧
    route_after_wait (handle_feedback s fb) = .END ∧
    (handle_feedback s fb).research_plan = s.research_plan ∧
    (handle_feedback s fb).current_step_index = s.current_step_index := by
  have hred : handle_feedback s fb = handle_plan_feedback s fb := by
    unfold handle_feedback
    simp only [hev]
    rw [if_pos het]
  have hrej : handle_plan_feedback s fb =
      { s.set_error "Research plan rejected by user" with
          pending_hitl_event := none } := by
    unfold handle_plan_feedback
    rw [if_neg (by rw [hact]; decide), if_neg (by rw [hact]; decide)]
  rw [hred, hrej]
  exact ⟨rfl, rfl, ⟨"Research plan ", "", rfl⟩, rfl, rfl, rfl, rfl⟩

/-- Witness for C8 at the plan-review fixture session. -/
theorem plan_rejection_terminal_witness :
    (handle_feedback reviewState rejectFeedback).status = .error ∧
    (handle_feedback reviewState rejectFeedback).error_message =
        some "Research plan rejected by user" ∧
    (handle_feedback reviewState rejectFeedback).pending_hitl_event = none ∧
    route_after_wait (handle_feedback reviewState rejectFeedback) = .END := by
  have h := plan_rejection_terminal reviewState rejectFeedback
    { event_type := "plan_approval", session_id := "sess" } rfl rfl rfl
  exact ⟨h.1, h.2.1, h.2.2.2.1, h.2.2.2.2.1⟩

/-- C4: whenever a current step exists, evaluation returns (it is total
by construction, every judgment outcome including a raised exception
being handled) and advances the cursor by exactly one in every branch;
in particular an exception during judgment leaves everything but the
cursor untouched, which is the implicit-approval behaviour. -/
theorem evaluation_total_advance (s : ResearchAgentState)
    (j : JudgmentOutcome) (st : ResearchStep)
    (h : s.get_current_step = some st) :
    (evaluate_task_result s j).current_step_index =
        s.current_step_index + 1 ∧
    (∀ m : String,
      evaluate_task_result s (.exn m) =
        { s with current_step_index := s.current_step_index + 1 }) := by
  constructor
  · rcases evaluate_cases j h with hcase | ⟨_, new, _, _, hcase⟩ <;> rw [hcase]
  · intro m
    exact evaluate_exn m h

/-- Witness for C4 at the two-step fixture with an exception
outcome. -/
theorem evaluation_total_advance_witness :
    (evaluate_task_result tState (.exn "judgment crashed")).current_step_index = 1 ∧
    evaluate_task_result tState (.exn "judgment crashed") =
      { tState with current_step_index := 1 } := by
  have h := evaluation_total_advance tState (.exn "judgment crashed") tStepA rfl
  exact ⟨h.1.trans (by decide), (h.2 "judgment crashed").trans (by decide)⟩

/-- C3: a current step at depth at or above the maximum recursion
depth never triggers insertion for any judgment outcome - the plan is
unchanged and the cursor simply advances; and evaluation never creates
a step whose depth exceeds the maximum when all existing steps respect
the bound. -/
theorem depth_bound_no_expansion (s : ResearchAgentState)
    (j : JudgmentOutcome) :
    (∀ st : ResearchStep, s.get_current_step = some st →
      MAX_RECURSION_DEPTH ≤ st.depth →
      (evaluate_task_result s j).research_plan = s.research_plan ∧
      (evaluate_task_result s j).current_step_index =
          s.current_step_index + 1) ∧
    ((∀ x ∈ planSteps s, x.depth ≤ MAX_RECURSION_DEPTH) →
      ∀ x ∈ planSteps (evaluate_task_result s j),
        x.depth ≤ MAX_RECURSION_DEPTH) := by
  constructor
  · intro st h hge
    rcases evaluate_cases j h with hcase | ⟨hlt, _, _, _, _⟩
    · rw [hcase]
      exact ⟨rfl, rfl⟩
    · omega
  · intro hbound
    cases hstep : s.get_current_step with
    | none =>
      rw [evaluate_no_step j hstep]
      exact hbound
    | some st =>
      rcases evaluate_cases j hstep with hcase | ⟨hlt, new, hne, hdepth, hcase⟩
      · rw [hcase]
        intro x hx
        rw [planSteps_congr (a := { s with current_step_index := s.current_step_index + 1 })
          (b := s) rfl] at hx
        exact hbound x hx
      · rw [hcase]
        intro x hx
        rw [planSteps_congr
          (a := { s.insert_steps_after_current new with
                    current_step_index := s.current_step_index + 1 })
          (b := s.insert_steps_after_current new) rfl] at hx
        rcases (insert_steps_fields s new).2.2.2.2.2.2 x hx with hmem | hmem
        · exact hbound x hmem
        · rw [hdepth x hmem]
          omega

/-- Witness for C3 at a session whose current step sits exactly at the
maximum depth, with an insight present, under a needs-more-info
verdict. -/
theorem depth_bound_no_expansion_witness :
    (evaluate_task_result boundaryState
        (.decision "NEEDS_MORE_INFO" [subData1])).research_plan =
      boundaryState.research_plan ∧
    (evaluate_task_result boundaryState
        (.decision "NEEDS_MORE_INFO" [subData1])).current_step_index = 1 ∧
    boundaryStep.depth ≤ MAX_RECURSION_DEPTH := by
  have h := (depth_bound_no_expansion boundaryState
    (.decision "NEEDS_MORE_INFO" [subData1])).1 boundaryStep rfl (by decide)
  have h2 := (depth_bound_no_expansion boundaryState
    (.decision "NEEDS_MORE_INFO" [subData1])).2 (by decide) boundaryStep (by decide)
  exact ⟨h.1, h.2.trans (by decide), h2⟩

/-- C5 counterexample: at a concrete session whose current step has
depth 6, above the configured maximum of 5, the circuit breaker's
before hook does raise - yet the middleware-wrapped pipeline absorbs
the raise, runs the node, and returns success with the session still
executing, never an error.  The claim that the trip propagates out of
the middleware layer is therefore false. -/
theorem circuit_breaker_trip_not_propagated_cex :
    (recursionCircuitBreaker 5).before_node_execution "execute_step" cexDeepState =
        .error "Recursion Circuit Broken: Step depth 6 exceeds limit 5" ∧
    wrap_node [recursionCircuitBreaker 5] okNode "execute_step" cexDeepState =
        .ok cexAfterState ∧
    cexAfterState.status = AgentStatus.executing := by
  exact ⟨rfl, rfl, rfl⟩

/-- C5 amended: when the current step's depth exceeds the configured
maximum, the circuit breaker's before hook raises the RuntimeError,
but MiddlewareManager.wrap_node swallows before-hook exceptions, so
the wrapped invocation behaves exactly as the bare node on the
untouched state and no fault from the breaker ever reaches the
caller. -/
theorem circuit_breaker_trip_swallowed (s : ResearchAgentState)
    (st : ResearchStep) (n : String) (maxd : Nat)
    (node : ResearchAgentState → Except String ResearchAgentState)
    (h : s.get_current_step = some st) (hd : maxd < st.depth) :
    (recursionCircuitBreaker maxd).before_node_execution n s =
        .error ("Recursion Circuit Broken: Step depth " ++ toString st.depth ++
          " exceeds limit " ++ toString maxd) ∧
    wrap_node [recursionCircuitBreaker maxd] node n s =
      (match node s with
       | .ok r => .ok r
       | .error e => .error (e, s)) := by
  have hb : (recursionCircuitBreaker maxd).before_node_execution n s =
      .error ("Recursion Circuit Broken: Step depth " ++ toString st.depth ++
        " exceeds limit " ++ toString maxd) := by
    unfold recursionCircuitBreaker
    simp only [h]
    rw [if_pos (by omega)]
  refine ⟨hb, ?_⟩
  unfold wrap_node
  have hbefore : runBeforeHooks [recursionCircuitBreaker maxd] n s = s := by
    unfold runBeforeHooks
    simp [hb]
  rw [hbefore]
  cases hnode : node s with
  | ok r =>
    have hafter : runAfterHooks [recursionCircuitBreaker maxd] n r = r := by
      unfold runAfterHooks
      simp [recursionCircuitBreaker]
    simp [hnode, hafter]
  | error e =>
    have herr : runErrorHooks [recursionCircuitBreaker maxd] n s e = s := by
      unfold runErrorHooks
      simp [recursionCircuitBreaker]
    simp [hnode, herr]

/-- Witness for the amended C5 at the concrete deep session. -/
theorem circuit_breaker_trip_swallowed_witness :
    (recursionCircuitBreaker 5).before_node_execution "n" cexDeepState =
        .error ("Recursion Circuit Broken: Step depth " ++ toString cexDeepStep.depth ++
          " exceeds limit " ++ toString 5) ∧
    wrap_node [recursionCircuitBreaker 5] okNode "n" cexDeepState =
      (match okNode cexDeepState with
       | .ok r => .ok r
       | .error e => .error (e, cexDeepState)) := by
  exact circuit_breaker_trip_swallowed cexDeepState cexDeepStep "n" 5 okNode rfl
    (by decide)

/-- C7: wrap_node drives every before hook in registration order, then
the node, then every after hook in the same registration order (not
reversed); a hook that raises is swallowed and execution continues
with the state as of before that hook; and a raising node makes all
on-error hooks run in registration order before the original exception
is re-raised unchanged. -/
theorem middleware_hook_order (tags : List String) (n : String)
    (s : ResearchAgentState) :
    wrap_node (tags.map tagMW) okNode n s =
        .ok { s with metadata := s.metadata ++
                tags.map (fun t => t ++ ":before") ++ ["node"] ++
                tags.map (fun t => t ++ ":after") } ∧
    (∀ t1 t2 : String,
      wrap_node [tagMW t1, crashMW, tagMW t2] okNode n s =
        .ok { s with metadata := s.metadata ++
                [t1 ++ ":before", t2 ++ ":before", "node",
                 t1 ++ ":after", t2 ++ ":after"] }) ∧
    (∀ e : String,
      wrap_node (tags.map tagMW) (failNode e) n s =
        .error (e, { s with metadata := s.metadata ++ tags.map (fun t => t ++ ":before") ++ tags.map (fun t => t ++ ":onerror:" ++ e) })) := by
  refine ⟨?_, ?_, ?_⟩
  · have hnode : okNode (runBeforeHooks (tags.map tagMW) n s) =
        .ok { s with metadata :=
          (s.metadata ++ tags.map (fun t => t ++ ":before")) ++ ["node"] } := by
      rw [runBeforeHooks_tagMW]
      rfl
    rw [wrap_node_ok hnode, runAfterHooks_tagMW]
  · intro t1 t2
    unfold wrap_node runBeforeHooks runAfterHooks
    simp [tagMW, crashMW, okNode, List.append_assoc]
  · intro e
    have hnode : failNode e (runBeforeHooks (tags.map tagMW) n s) = .error e := rfl
    rw [wrap_node_error hnode, runBeforeHooks_tagMW, runErrorHooks_tagMW]

/-- C1: with the plan [A, B], the cursor on A (index 0), an insight
stored for A and A below the depth bound, a needs-more-info verdict
carrying the candidates [d1, d2] yields exactly the step order
[A, A.sub1, A.sub2, B] - the materialised sub-steps spliced
immediately after A in order, B untouched - and the cursor becomes 1,
pointing at A.sub1. -/
theorem evaluation_insertion_ordering (s : ResearchAgentState)
    (p : ResearchPlan) (A B : ResearchStep) (d1 d2 : NewStepData)
    (hp : s.research_plan = some p) (hsteps : p.steps = [A, B])
    (hidx : s.current_step_index = 0)
    (hins : (lookupD s.extracted_insights A.step_id).isSome = true)
    (hdepth : A.depth < MAX_RECURSION_DEPTH) :
    (evaluate_task_result s
        (.decision "NEEDS_MORE_INFO" [d1, d2])).research_plan =
      some { p with steps := [A, materializeSubStep A 0 d1,
                              materializeSubStep A 1 d2, B] } ∧
    (evaluate_task_result s
        (.decision "NEEDS_MORE_INFO" [d1, d2])).current_step_index = 1 ∧
    (evaluate_task_result s
        (.decision "NEEDS_MORE_INFO" [d1, d2])).get_current_step =
      some (materializeSubStep A 0 d1) := by
  have hget : s.get_current_step = some A := by
    unfold ResearchAgentState.get_current_step
    simp only [hp]
    unfold ResearchPlan.get_current_step
    rw [hsteps, hidx]
    simp
  have hnew : ([d1, d2].enum.map (fun q => materializeSubStep A q.1 q.2)) =
      [materializeSubStep A 0 d1, materializeSubStep A 1 d2] := by
    simp [List.enum, List.enumFrom]
  have hev : evaluate_task_result s (.decision "NEEDS_MORE_INFO" [d1, d2]) =
      { s.insert_steps_after_current
          [materializeSubStep A 0 d1, materializeSubStep A 1 d2] with
        current_step_index := s.current_step_index + 1 } := by
    unfold evaluate_task_result
    simp only [hget]
    have hdec : decide (A.depth < MAX_RECURSION_DEPTH) = true :=
      decide_eq_true hdepth
    simp only [hins, hdec, Bool.true_and, eq_self_iff_true, if_true]
    rw [hnew]
    simp only [List.isEmpty_cons, Bool.false_eq_true, if_false]
    have hidx2 := (insert_steps_fields s
      [materializeSubStep A 0 d1, materializeSubStep A 1 d2]).1
    congr 1
    omega
  have hplan : (evaluate_task_result s
      (.decision "NEEDS_MORE_INFO" [d1, d2])).research_plan =
      some { p with steps := [A, materializeSubStep A 0 d1,
                              materializeSubStep A 1 d2, B] } := by
    rw [hev]
    show (s.insert_steps_after_current
      [materializeSubStep A 0 d1, materializeSubStep A 1 d2]).research_plan = _
    rw [insert_steps_steps _ hp, hsteps, hidx]
    norm_num
  have hix : (evaluate_task_result s
      (.decision "NEEDS_MORE_INFO" [d1, d2])).current_step_index = 1 := by
    rw [hev]
    show s.current_step_index + 1 = 1
    omega
  refine ⟨hplan, hix, ?_⟩
  unfold ResearchAgentState.get_current_step
  simp only [hplan, hix]
  unfold ResearchPlan.get_current_step
  simp

/-- Witness for C1 at the two-step fixture session with two concrete
candidates. -/
theorem evaluation_insertion_ordering_witness :
    (evaluate_task_result tState
        (.decision "NEEDS_MORE_INFO" [subData1, subData2])).research_plan =
      some { tPlan with steps := [tStepA, materializeSubStep tStepA 0 subData1,
                                  materializeSubStep tStepA 1 subData2, tStepB] } ∧
    (evaluate_task_result tState
        (.decision "NEEDS_MORE_INFO" [subData1, subData2])).current_step_index = 1 := by
  have h := evaluation_insertion_ordering tState tPlan tStepA tStepB
    subData1 subData2 rfl rfl rfl (by decide) (by decide)
  exact ⟨h.1, h.2.1⟩

/-- C6: any failure inside the worker's gather, verify or distill
phases is caught: the current step is marked failed carrying the
failure message, the partially updated state is returned, the session
status stays executing (never error), already stored insights are
untouched and the cursor stays put; and the next step in plan order
can still execute - evaluation still advances the cursor, leaves the
session executing, and while steps remain the routing returns to step
execution. -/
theorem step_failure_isolation (s : ResearchAgentState)
    (o : WorkerOutcomes) (st : ResearchStep) (msg : String)
    (hstep : s.get_current_step = some st)
    (hfail : workerFailure o = some msg) :
    (execute_task_node s o).get_current_step =
        some { st with status := .failed, error_message := some msg } ∧
    (execute_task_node s o).status = AgentStatus.executing ∧
    (execute_task_node s o).extracted_insights = s.extracted_insights ∧
    (execute_task_node s o).current_step_index = s.current_step_index ∧
    planLen (execute_task_node s o) = planLen s ∧
    (∀ j : JudgmentOutcome,
      (evaluate_task_result (execute_task_node s o) j).current_step_index =
          s.current_step_index + 1 ∧
      (evaluate_task_result (execute_task_node s o) j).status =
          AgentStatus.executing ∧
      (s.current_step_index + 1 < (planLen s : Int) →
        check_step_completion
          (evaluate_task_result (execute_task_node s o) j) =
          .execute_step)) := by
  have hw := worker_failure_result (o := o) hstep hfail
  unfold execute_task_node
  refine ⟨hw.1, hw.2.1, hw.2.2.1, hw.2.2.2.1, hw.2.2.2.2, ?_⟩
  intro j
  obtain ⟨pW, hpW, h0W, hltW, hgetW⟩ := get_current_step_some hw.1
  have hlenW : planLen (worker_call s o) = pW.steps.length := by
    unfold planLen planSteps
    rw [hpW]
  rcases evaluate_cases j hw.1 with hcase | ⟨_, new, _, _, hcase⟩
  · refine ⟨?_, ?_, ?_⟩
    · rw [hcase]
      show (worker_call s o).current_step_index + 1 =
        s.current_step_index + 1
      rw [hw.2.2.2.1]
    · rw [hcase]
      exact hw.2.1
    · intro hlt
      rw [hcase]
      unfold check_step_completion
      rw [if_neg (by
        show ¬((worker_call s o).status = AgentStatus.error)
        rw [hw.2.1]
        decide)]
      simp only [hpW]
      rw [if_pos (by
        show (worker_call s o).current_step_index + 1 <
          (pW.steps.length : Int)
        rw [hw.2.2.2.1]
        omega)]
  · have hplanI := insert_steps_steps new hpW
    refine ⟨?_, ?_, ?_⟩
    · rw [hcase]
      show (worker_call s o).current_step_index + 1 = s.current_step_index + 1
      rw [hw.2.2.2.1]
    · rw [hcase]
      show ((worker_call s o).insert_steps_after_current new).status =
        AgentStatus.executing
      rw [(insert_steps_fields (worker_call s o) new).2.1]
      exact hw.2.1
    · intro hlt
      rw [hcase]
      unfold check_step_completion
      rw [if_neg (by
        show ¬(((worker_call s o).insert_steps_after_current new).status =
          AgentStatus.error)
        rw [(insert_steps_fields (worker_call s o) new).2.1, hw.2.1]
        decide)]
      simp only [hplanI]
      rw [if_pos (by
        rw [hw.2.2.2.1]
        simp only [List.length_append, List.length_take, List.length_drop]
        omega)]

/-- Witness for C6: a gather exception at the two-step fixture. -/
theorem step_failure_isolation_witness :
    (execute_task_node tState failOutcomes).get_current_step =
        some { tStepA with status := .failed, error_message := some "network down" } ∧
    (execute_task_node tState failOutcomes).status = AgentStatus.executing ∧
    (execute_task_node tState failOutcomes).extracted_insights =
        tState.extracted_insights ∧
    (evaluate_task_result (execute_task_node tState failOutcomes)
        (.exn "m")).current_step_index = 1 ∧
    check_step_completion
        (evaluate_task_result (execute_task_node tState failOutcomes)
          (.exn "m")) = .execute_step := by
  have h := step_failure_isolation tState failOutcomes tStepA "network down"
    rfl (by decide)
  have hj := h.2.2.2.2.2 (.exn "m")
  exact ⟨h.1, h.2.1, h.2.2.1, hj.1.trans (by decide), hj.2.2 (by decide)⟩

/-- C2: every embedded node transition - plan generation, step
execution, evaluation and both feedback handlers - preserves the
cursor invariant 0 ≤ current_step_index ≤ number of plan steps; and
for a session holding a plan and not in error status, the routing
after evaluation chooses report generation exactly when the cursor has
reached the plan length, and returns to step execution whenever steps
remain. -/
theorem cursor_invariant_and_routing :
    (∀ (s : ResearchAgentState) (o : PlanOutcome),
       CursorInv s → CursorInv (generate_plan s o)) ∧
    (∀ (s : ResearchAgentState) (o : WorkerOutcomes),
       CursorInv s → CursorInv (execute_task_node s o)) ∧
    (∀ (s : ResearchAgentState) (j : JudgmentOutcome),
       CursorInv s → CursorInv (evaluate_task_result s j)) ∧
    (∀ (s : ResearchAgentState) (fb : Feedback),
       CursorInv s → CursorInv (handle_plan_feedback s fb)) ∧
    (∀ (s : ResearchAgentState) (fb : Feedback),
       CursorInv s → CursorInv (handle_report_feedback s fb)) ∧
    (∀ (s : ResearchAgentState) (p : ResearchPlan),
       s.research_plan = some p → s.status ≠ .error →
       ((check_step_completion s = .generate_report ↔
           (p.steps.length : Int) ≤ s.current_step_index) ∧
        (s.current_step_index < (p.steps.length : Int) →
           check_step_completion s = .execute_step))) := by
  refine ⟨?_, ?_, ?_, ?_, ?_, ?_⟩
  · intro s o hinv
    cases o with
    | exn m =>
      intro p hp
      exact hinv p hp
    | ok plan =>
      intro p hp
      constructor
      · show (0 : Int) ≤ 0
        omega
      · show (0 : Int) ≤ (p.steps.length : Int)
        omega
  · intro s o hinv
    exact cursorInv_of_sameShape (worker_call_shape s o) hinv
  · intro s j hinv
    cases hstep : s.get_current_step with
    | none =>
      rw [evaluate_no_step j hstep]
      exact hinv
    | some st =>
      obtain ⟨p0, hp0, h00, hlt0, _⟩ := get_current_step_some hstep
      rcases evaluate_cases j hstep with hcase | ⟨_, new, _, _, hcase⟩
      · rw [hcase]
        intro p hp
        have hpeq : s.research_plan = some p := hp
        rw [hp0] at hpeq
        have hlen : p0.steps.length = p.steps.length := by
          injection hpeq with h2
          rw [h2]
        show 0 ≤ s.current_step_index + 1 ∧ s.current_step_index + 1 ≤ (p.steps.length : Int)
        omega
      · rw [hcase]
        intro p hp
        rw [show ({ s.insert_steps_after_current new with current_step_index := s.current_step_index + 1 } : ResearchAgentState).research_plan = (s.insert_steps_after_current new).research_plan from rfl, insert_steps_steps new hp0] at hp
        injection hp with hp2
        subst hp2
        constructor
        · show 0 ≤ s.current_step_index + 1
          omega
        · show s.current_step_index + 1 ≤ ((p0.steps.take (s.current_step_index + 1).toNat ++ new ++ p0.steps.drop (s.current_step_index + 1).toNat).length : Int)
          simp only [List.length_append, List.length_take, List.length_drop]
          omega
  · intro s fb hinv
    unfold handle_plan_feedback
    by_cases happ : fb.action = some "approve"
    · rw [if_pos happ]
      intro p hp
      constructor
      · show (0 : Int) ≤ 0
        omega
      · show (0 : Int) ≤ (p.steps.length : Int)
        omega
    · rw [if_neg happ]
      by_cases hmod : fb.action = some "modify"
      · rw [if_pos hmod]
        rcases hmp : fb.modified_plan with _ | patch
        · rcases hrp : s.research_plan with _ | plan
          · exact hinv
          · intro p hp
            injection hp with hp2
            subst hp2
            show 0 ≤ s.current_step_index ∧
              s.current_step_index ≤ (plan.steps.length : Int)
            exact hinv plan hrp
        · rcases hrp : s.research_plan with _ | plan
          · exact hinv
          · intro p hp
            constructor
            · show (0 : Int) ≤ 0
              omega
            · show (0 : Int) ≤ (p.steps.length : Int)
              omega
      · rw [if_neg hmod]
        exact hinv
  · intro s fb hinv
    unfold handle_report_feedback
    by_cases happ : fb.action = some "approve"
    · rw [if_pos happ]
      exact hinv
    · rw [if_neg happ]
      by_cases hrej : fb.action = some "reject"
      · rw [if_pos hrej]
        exact hinv
      · rw [if_neg hrej]
        exact hinv
  · intro s p hp herr
    unfold check_step_completion
    rw [if_neg herr]
    simp only [hp]
    by_cases hlt : s.current_step_index < (p.steps.length : Int)
    · rw [if_pos hlt]
      refine ⟨⟨fun habs => ?_, fun hge => ?_⟩, fun _ => rfl⟩
      · exact absurd habs (by decide)
      · omega
    · rw [if_neg hlt]
      exact ⟨⟨fun _ => by omega, fun _ => rfl⟩, fun h => absurd h hlt⟩

/-- Witness for C2: the invariant holds at the fixture session, is
preserved by an evaluation there, and the routing sends the fixture
session back to step execution. -/
theorem cursor_invariant_and_routing_witness :
    CursorInv tState ∧
    CursorInv (evaluate_task_result tState (.exn "m")) ∧
    check_step_completion tState = .execute_step := by
  have hinv : CursorInv tState := by
    intro p hp
    obtain rfl : tPlan = p := by injection hp
    decide
  refine ⟨hinv, cursor_invariant_and_routing.2.2.1 tState (.exn "m") hinv,
    (cursor_invariant_and_routing.2.2.2.2.2 tState tPlan rfl (by decide)).2
      (by decide)⟩

end DeepResearch

